import Mathlib

/-!
Shallow embedding of the DCF valuation core of `dcf_valuation_tool.py`.

Numbers are modelled as exact rationals (ℚ). Python's float division raising
`ZeroDivisionError` is modelled by `pydiv` returning `Except Err`; an
exception aborts the enclosing computation, which the `Except` monad mirrors.
Python's `round(x, 2)` (round to 2 decimal places, ties to even) is modelled
by `round2`. Indexing `fcf_list[-1]` on an empty list raises `IndexError`,
modelled by `Err.indexError`. The Excel/pandas extraction layer
(`load_financial_data`, `extract_value`, `extract_base_fcf`) is external glue
out of the core's scope: `dcf_model` is embedded from the point where the
four scalars (base_fcf, net debt, shares) have been extracted, taking them
as parameters.
-/

namespace DCF

/-- Error kinds raised by the Python code: `ZeroDivisionError` from `/`,
`IndexError` from `fcf_list[-1]` on an empty list. -/
inductive Err where
  | divByZero : Err
  | indexError : Err
deriving DecidableEq, Repr

/-- Python float division: raises `ZeroDivisionError` on a zero denominator,
otherwise exact quotient. -/
def pydiv (a b : ℚ) : Except Err ℚ :=
  if b = 0 then .error .divByZero else .ok (a / b)

/-- Round a rational to the nearest integer, ties to even
(the rounding of Python's built-in `round`). -/
def rnd2int (q : ℚ) : ℤ :=
  if q - ⌊q⌋ < 1/2 then ⌊q⌋
  else if 1/2 < q - ⌊q⌋ then ⌊q⌋ + 1
  else if ⌊q⌋ % 2 = 0 then ⌊q⌋ else ⌊q⌋ + 1

/-- Python's `round(q, 2)`: round to the nearest multiple of 1/100,
ties to even. -/
def round2 (q : ℚ) : ℚ := (rnd2int (100 * q) : ℚ) / 100

/-- Python `project_fcf(base_fcf, growth_rate, years=5)`:
`[round(base_fcf * ((1 + growth_rate) ** i), 2) for i in range(1, years + 1)]`. -/
def project_fcf (base_fcf growth_rate : ℚ) (years : ℕ := 5) : List ℚ :=
  (List.range years).map (fun i => round2 (base_fcf * (1 + growth_rate) ^ (i + 1)))

/-- Python `calculate_terminal_value(last_fcf, growth_rate, wacc, terminal_growth)`:
`(last_fcf * (1 + growth_rate)) / (wacc - terminal_growth)`. -/
def calculate_terminal_value (last_fcf growth_rate wacc terminal_growth : ℚ) :
    Except Err ℚ :=
  pydiv (last_fcf * (1 + growth_rate)) (wacc - terminal_growth)

/-- The comprehension `[fcf / ((1 + wacc) ** (i + 1)) for i, fcf in enumerate(fcfs)]`
that appears in both `discount_cash_flows` and `dcf_sensitivity_analysis`;
`i` is the running index, starting from the first argument. -/
def pvList (wacc : ℚ) : ℕ → List ℚ → Except Err (List ℚ)
  | _, [] => .ok []
  | i, fcf :: rest => do
    let d ← pydiv fcf ((1 + wacc) ^ (i + 1))
    let ds ← pvList wacc (i + 1) rest
    return d :: ds

/-- Proof helper: the pure value that `pvList` returns when no division
fails (the denominator `1 + wacc` is nonzero). -/
def pvPure (wacc : ℚ) : ℕ → List ℚ → List ℚ
  | _, [] => []
  | i, fcf :: rest => fcf / (1 + wacc) ^ (i + 1) :: pvPure wacc (i + 1) rest

/-- Python `discount_cash_flows(fcfs, terminal_value, wacc, years=5)`:
present values of the flows, then `round(terminal_pv, 2)` appended. -/
def discount_cash_flows (fcfs : List ℚ) (terminal_value wacc : ℚ)
    (years : ℕ := 5) : Except Err (List ℚ) := do
  let discounted ← pvList wacc 0 fcfs
  let terminal_pv ← pydiv terminal_value ((1 + wacc) ^ years)
  return discounted ++ [round2 terminal_pv]

/-- The dict returned by `calculate_valuation`: fields
`"Enterprise Value (B)"`, `"Equity Value (B)"`, `"Share Price ($)"`. -/
structure Valuation where
  enterprise_value_B : ℚ
  equity_value_B : ℚ
  share_price : ℚ
deriving DecidableEq, Repr

/-- Python `calculate_valuation(discounted_fcfs, net_debt, shares_outstanding)`:
sums the discounted flows, subtracts net debt, divides by shares, and
returns the three display fields `round(ev / 1000, 2)`,
`round(equity / 1000, 2)`, `round(share_price, 2)`. -/
def calculate_valuation (discounted_fcfs : List ℚ) (net_debt shares_outstanding : ℚ) :
    Except Err Valuation := do
  let enterprise_value := discounted_fcfs.sum
  let equity_value := enterprise_value - net_debt
  let share_price ← pydiv equity_value shares_outstanding
  return { enterprise_value_B := round2 (enterprise_value / 1000)
           equity_value_B := round2 (equity_value / 1000)
           share_price := round2 share_price }

/-- One scenario's inputs: the dict `{"growth": ..., "wacc": ...}`. -/
structure ScenarioInputs where
  growth : ℚ
  wacc : ℚ
deriving DecidableEq, Repr

/-- The body of the `for scenario, inputs in scenario_inputs.items()` loop of
`dcf_model` (lines 53-60): project, terminal value from `fcfs[-1]`, discount,
aggregate; returns the scenario's valuation and discounted series. -/
def run_scenario (base_fcf net_debt shares terminal_growth : ℚ)
    (inputs : ScenarioInputs) : Except Err (Valuation × List ℚ) := do
  let fcfs := project_fcf base_fcf inputs.growth
  let last_fcf ← match fcfs.getLast? with
    | some x => Except.ok x
    | none => Except.error Err.indexError
  let terminal_value ← calculate_terminal_value last_fcf inputs.growth inputs.wacc terminal_growth
  let discounted ← discount_cash_flows fcfs terminal_value inputs.wacc
  let valuation ← calculate_valuation discounted net_debt shares
  return (valuation, discounted)

/-- A Python `for` loop over a list that builds one result per element and
propagates the first raised exception, aborting the rest of the loop. -/
def mapME {α β : Type} (f : α → Except Err β) : List α → Except Err (List β)
  | [] => .ok []
  | a :: as => do
    let b ← f a
    let bs ← mapME f as
    return b :: bs

/-- The core of `dcf_model(file_path, scenario_inputs, terminal_growth=0.025)`
after extraction: iterates the scenarios in insertion order, collecting
`results` (scenario name to valuation) and `fcf_tables` (scenario name to
discounted series). The Python dicts are modelled as association lists in
insertion order. An exception in any scenario propagates out of the loop. -/
def dcf_model (base_fcf net_debt shares : ℚ)
    (scenario_inputs : List (String × ScenarioInputs)) (terminal_growth : ℚ) :
    Except Err (List (String × Valuation) × List (String × List ℚ)) := do
  let pairs ← mapME (fun p =>
    (run_scenario base_fcf net_debt shares terminal_growth p.2).map (fun vd => (p.1, vd)))
    scenario_inputs
  return (pairs.map (fun x => (x.1, x.2.1)), pairs.map (fun x => (x.1, x.2.2)))

/-- Line 71 of `dcf_sensitivity_analysis`:
`fcf_list = [base_fcf * ((1 + growth_rate) ** i) for i in range(1, years + 1)]`
— note: no rounding, unlike `project_fcf`. -/
def fcf_list_sens (base_fcf growth_rate : ℚ) (years : ℕ) : List ℚ :=
  (List.range years).map (fun i => base_fcf * (1 + growth_rate) ^ (i + 1))

/-- The body of the inner `for r in wacc_range` loop of
`dcf_sensitivity_analysis` (lines 76-83): terminal value from the last
unrounded flow with denominator `r - g`, discount, aggregate, store
`round(price, 2)`. Here `g` is the terminal-growth value of the outer loop. -/
def sens_cell (net_debt shares growth_rate : ℚ) (fcf_list : List ℚ)
    (years : ℕ) (g r : ℚ) : Except Err ℚ := do
  let fcf_2026 ← match fcf_list.getLast? with
    | some x => Except.ok x
    | none => Except.error Err.indexError
  let tv ← pydiv (fcf_2026 * (1 + growth_rate)) (r - g)
  let tv_pv ← pydiv tv ((1 + r) ^ years)
  let discounted_fcfs ← pvList r 0 fcf_list
  let ev := discounted_fcfs.sum + tv_pv
  let equity := ev - net_debt
  let price ← pydiv equity shares
  return round2 price

/-- Python `dcf_sensitivity_analysis(base_fcf, shares, net_debt, growth_rate,
wacc_range, tg_range, years=5)`: one row per terminal-growth value, one
column per WACC value, each cell the rounded share price. An exception in
any cell propagates out of both loops (the pandas frame is modelled
positionally as a list of rows). -/
def dcf_sensitivity_analysis (base_fcf shares net_debt growth_rate : ℚ)
    (wacc_range tg_range : List ℚ) (years : ℕ := 5) :
    Except Err (List (List ℚ)) :=
  let fcf_list := fcf_list_sens base_fcf growth_rate years
  mapME (fun g =>
    mapME (fun r => sens_cell net_debt shares growth_rate fcf_list years g r)
      wacc_range) tg_range

/-- Proof helper: the discounted series that `run_scenario` produces for a
scenario with growth `g` and WACC `w` when every stage succeeds. -/
def dsRS (b t g w : ℚ) : List ℚ :=
  pvPure w 0 (project_fcf b g 5) ++
    [round2 ((round2 (b * (1 + g) ^ 5) * (1 + g) / (w - t)) / (1 + w) ^ 5)]

/-- Proof helper: the valuation that `run_scenario` produces for a scenario
with growth `g` and WACC `w` when every stage succeeds. -/
def vRS (b nd sh t g w : ℚ) : Valuation :=
  { enterprise_value_B := round2 ((dsRS b t g w).sum / 1000)
    equity_value_B := round2 (((dsRS b t g w).sum - nd) / 1000)
    share_price := round2 (((dsRS b t g w).sum - nd) / sh) }

/-! Basic lemmas about the monadic plumbing and the rounding function. -/

theorem ok_bind {α β : Type} (a : α) (f : α → Except Err β) :
    (Except.ok a >>= f) = f a := rfl

theorem error_bind {α β : Type} (e : Err) (f : α → Except Err β) :
    ((Except.error e : Except Err α) >>= f) = Except.error e := rfl

theorem map_error {α β : Type} (e : Err) (f : α → β) :
    (Except.error e : Except Err α).map f = Except.error e := rfl

theorem map_ok {α β : Type} (a : α) (f : α → β) :
    (Except.ok a : Except Err α).map f = Except.ok (f a) := rfl

theorem pydiv_ok (a b : ℚ) (hb : b ≠ 0) : pydiv a b = .ok (a / b) := by
  simp [pydiv, hb]

theorem pydiv_zero (a : ℚ) : pydiv a 0 = .error .divByZero := by
  simp [pydiv]

theorem rnd2int_le_cases (q : ℚ) : rnd2int q = ⌊q⌋ ∨ rnd2int q = ⌊q⌋ + 1 := by
  unfold rnd2int
  split
  · exact Or.inl rfl
  · split
    · exact Or.inr rfl
    · split
      · exact Or.inl rfl
      · exact Or.inr rfl

theorem rnd2int_nonneg (q : ℚ) (h : 0 ≤ q) : 0 ≤ rnd2int q := by
  have hf : (0 : ℤ) ≤ ⌊q⌋ := Int.floor_nonneg.mpr h
  rcases rnd2int_le_cases q with he | he <;> omega

theorem round2_nonneg (q : ℚ) (h : 0 ≤ q) : 0 ≤ round2 q := by
  unfold round2
  have h1 : (0 : ℤ) ≤ rnd2int (100 * q) := rnd2int_nonneg _ (by positivity)
  have h2 : (0 : ℚ) ≤ (rnd2int (100 * q) : ℚ) := by exact_mod_cast h1
  positivity

theorem rnd2int_intCast (k : ℤ) : rnd2int (k : ℚ) = k := by
  unfold rnd2int
  rw [Int.floor_intCast, sub_self]
  norm_num

theorem round2_of_int_div (k : ℤ) : round2 ((k : ℚ) / 100) = (k : ℚ) / 100 := by
  unfold round2
  have h : (100 : ℚ) * ((k : ℚ) / 100) = (k : ℚ) := by ring
  rw [h, rnd2int_intCast]

theorem round2_eval_down (q : ℚ) (k : ℤ) (h1 : (k : ℚ) ≤ 100 * q)
    (h2 : 100 * q - k < 1/2) : round2 q = (k : ℚ) / 100 := by
  have hf : ⌊100 * q⌋ = k := Int.floor_eq_iff.mpr ⟨h1, by linarith⟩
  unfold round2 rnd2int
  rw [hf, if_pos h2]

theorem round2_eval_up (q : ℚ) (k : ℤ) (h1 : 1/2 < 100 * q - k)
    (h2 : 100 * q < k + 1) : round2 q = ((k : ℚ) + 1) / 100 := by
  have hf : ⌊100 * q⌋ = k := Int.floor_eq_iff.mpr ⟨by linarith, h2⟩
  unfold round2 rnd2int
  rw [hf, if_neg (by linarith), if_pos h1]
  push_cast
  ring

/-! Lemmas about `pvList` and `pvPure`. -/

theorem pvList_eq_pure (w : ℚ) (hw : 1 + w ≠ 0) :
    ∀ (i : ℕ) (l : List ℚ), pvList w i l = .ok (pvPure w i l)
  | _, [] => rfl
  | i, fcf :: rest => by
    rw [pvList, pydiv_ok _ _ (pow_ne_zero _ hw), ok_bind,
      pvList_eq_pure w hw (i + 1) rest, ok_bind]
    rfl

theorem pvPure_length (w : ℚ) :
    ∀ (i : ℕ) (l : List ℚ), (pvPure w i l).length = l.length
  | _, [] => rfl
  | i, fcf :: rest => by
    simp [pvPure, pvPure_length w (i + 1) rest]

theorem pvPure_getD (w : ℚ) :
    ∀ (i : ℕ) (l : List ℚ) (j : ℕ), j < l.length →
      (pvPure w i l).getD j 0 = l.getD j 0 / (1 + w) ^ (i + j + 1)
  | _, [], j, hj => by simp at hj
  | i, fcf :: rest, 0, _ => by simp [pvPure]
  | i, fcf :: rest, j + 1, hj => by
    have hj' : j < rest.length := by simpa using hj
    have := pvPure_getD w (i + 1) rest j hj'
    simpa [pvPure, Nat.add_right_comm i 1 j] using this

/-! Lemmas about `mapME`, the exception-propagating loop. -/

theorem mapME_ok_length {α β : Type} (f : α → Except Err β) :
    ∀ (l : List α) (bs : List β), mapME f l = .ok bs → bs.length = l.length
  | [], bs, h => by
    simp only [mapME] at h
    cases h
    rfl
  | a :: as, bs, h => by
    simp only [mapME] at h
    cases hfa : f a with
    | error e => rw [hfa, error_bind] at h; cases h
    | ok b =>
      rw [hfa, ok_bind] at h
      cases hms : mapME f as with
      | error e => rw [hms, error_bind] at h; cases h
      | ok bs' =>
        rw [hms, ok_bind] at h
        cases h
        simp [mapME_ok_length f as bs' hms]

theorem mapME_ok_getElem? {α β : Type} (f : α → Except Err β) :
    ∀ (l : List α) (bs : List β), mapME f l = .ok bs →
      ∀ (i : ℕ), bs[i]? = l[i]?.bind (fun a => (f a).toOption)
  | [], bs, h, i => by
    simp only [mapME] at h
    cases h
    simp
  | a :: as, bs, h, i => by
    simp only [mapME] at h
    cases hfa : f a with
    | error e => rw [hfa, error_bind] at h; cases h
    | ok b =>
      rw [hfa, ok_bind] at h
      cases hms : mapME f as with
      | error e => rw [hms, error_bind] at h; cases h
      | ok bs' =>
        rw [hms, ok_bind] at h
        cases h
        cases i with
        | zero => simp [hfa, Except.toOption]
        | succ i => simpa using mapME_ok_getElem? f as bs' hms i

theorem mapME_ok_map {α β γ : Type} (f : α → Except Err β) (g : β → γ) (h' : α → γ) :
    ∀ (l : List α) (bs : List β), mapME f l = .ok bs →
      (∀ a b, f a = .ok b → g b = h' a) → bs.map g = l.map h'
  | [], bs, h, _ => by
    simp only [mapME] at h
    cases h
    rfl
  | a :: as, bs, h, hgh => by
    simp only [mapME] at h
    cases hfa : f a with
    | error e => rw [hfa, error_bind] at h; cases h
    | ok b =>
      rw [hfa, ok_bind] at h
      cases hms : mapME f as with
      | error e => rw [hms, error_bind] at h; cases h
      | ok bs' =>
        rw [hms, ok_bind] at h
        cases h
        simp [hgh a b hfa, mapME_ok_map f g h' as bs' hms hgh]

theorem mapME_ok_mem {α β : Type} (f : α → Except Err β) :
    ∀ (l : List α) (bs : List β), mapME f l = .ok bs →
      ∀ b ∈ bs, ∃ a ∈ l, f a = .ok b
  | [], bs, h, b, hb => by
    simp only [mapME] at h
    cases h
    simp at hb
  | a :: as, bs, h, b, hb => by
    simp only [mapME] at h
    cases hfa : f a with
    | error e => rw [hfa, error_bind] at h; cases h
    | ok b0 =>
      rw [hfa, ok_bind] at h
      cases hms : mapME f as with
      | error e => rw [hms, error_bind] at h; cases h
      | ok bs' =>
        rw [hms, ok_bind] at h
        cases h
        rcases List.mem_cons.mp hb with hb | hb
        · exact ⟨a, List.mem_cons_self a as, hb ▸ hfa⟩
        · rcases mapME_ok_mem f as bs' hms b hb with ⟨a', ha', hfa'⟩
          exact ⟨a', List.mem_cons_of_mem a ha', hfa'⟩

/-! Equation lemmas for the pipeline stages on the success path. -/

theorem calculate_terminal_value_eq (l g w t : ℚ) (h : w ≠ t) :
    calculate_terminal_value l g w t = .ok (l * (1 + g) / (w - t)) := by
  unfold calculate_terminal_value
  exact pydiv_ok _ _ (sub_ne_zero.mpr h)

theorem discount_cash_flows_eq (fcfs : List ℚ) (tv w : ℚ) (y : ℕ)
    (hw : (1 : ℚ) + w ≠ 0) :
    discount_cash_flows fcfs tv w y =
      .ok (pvPure w 0 fcfs ++ [round2 (tv / (1 + w) ^ y)]) := by
  unfold discount_cash_flows
  rw [pvList_eq_pure w hw, ok_bind, pydiv_ok _ _ (pow_ne_zero _ hw), ok_bind]
  rfl

theorem calculate_valuation_eq (d : List ℚ) (nd sh : ℚ) (hsh : sh ≠ 0) :
    calculate_valuation d nd sh =
      .ok { enterprise_value_B := round2 (d.sum / 1000)
            equity_value_B := round2 ((d.sum - nd) / 1000)
            share_price := round2 ((d.sum - nd) / sh) } := by
  simp only [calculate_valuation, pydiv_ok _ _ hsh, ok_bind]
  rfl

theorem calculate_valuation_zero (d : List ℚ) (nd : ℚ) :
    calculate_valuation d nd 0 = .error .divByZero := by
  simp only [calculate_valuation, pydiv_zero, error_bind]

theorem project_fcf_getLast5 (b g : ℚ) :
    (project_fcf b g 5).getLast? = some (round2 (b * (1 + g) ^ 5)) := rfl

theorem fcf_list_sens_getLast5 (b g : ℚ) :
    (fcf_list_sens b g 5).getLast? = some (b * (1 + g) ^ 5) := rfl

theorem run_scenario_eq (b nd sh t g w : ℚ) (hw : (1 : ℚ) + w ≠ 0)
    (hwt : w ≠ t) (hsh : sh ≠ 0) :
    run_scenario b nd sh t ⟨g, w⟩ = .ok (vRS b nd sh t g w, dsRS b t g w) := by
  simp only [run_scenario, project_fcf_getLast5, ok_bind,
    calculate_terminal_value_eq _ _ _ _ hwt, discount_cash_flows_eq _ _ _ _ hw,
    calculate_valuation_eq _ _ _ hsh]
  rfl

theorem sens_cell_eq (nd sh gr : ℚ) (fl : List ℚ) (y : ℕ) (g r L : ℚ)
    (hlast : fl.getLast? = some L) (hrg : r - g ≠ 0) (hw : (1 : ℚ) + r ≠ 0)
    (hsh : sh ≠ 0) :
    sens_cell nd sh gr fl y g r =
      .ok (round2 ((((pvPure r 0 fl).sum + (L * (1 + gr) / (r - g)) / (1 + r) ^ y)
        - nd) / sh)) := by
  simp only [sens_cell, hlast, ok_bind, pydiv_ok _ _ hrg,
    pydiv_ok _ _ (pow_ne_zero y hw), pvList_eq_pure r hw, pydiv_ok _ _ hsh]
  rfl

theorem sens_cell_diag (nd sh gr : ℚ) (fl : List ℚ) (y : ℕ) (g : ℚ) :
    ∃ e, sens_cell nd sh gr fl y g g = .error e := by
  cases hl : fl.getLast? with
  | none =>
    exact ⟨.indexError, by simp only [sens_cell, hl, error_bind]⟩
  | some L =>
    refine ⟨.divByZero, ?_⟩
    simp only [sens_cell, hl, ok_bind, sub_self, pydiv_zero, error_bind]

theorem mapME_error_of_mem {α β : Type} (f : α → Except Err β) :
    ∀ (l : List α) (a : α), a ∈ l → (∃ e, f a = .error e) →
      ∃ e', mapME f l = .error e'
  | [], a, ha, _ => absurd ha (List.not_mem_nil a)
  | x :: xs, a, ha, he => by
    rcases List.mem_cons.mp ha with rfl | ha'
    · rcases he with ⟨e, he⟩
      exact ⟨e, by simp only [mapME]; rw [he, error_bind]⟩
    · cases hfx : f x with
      | error e => exact ⟨e, by simp only [mapME]; rw [hfx, error_bind]⟩
      | ok b =>
        rcases mapME_error_of_mem f xs a ha' he with ⟨e', he'⟩
        exact ⟨e', by simp only [mapME]; rw [hfx, ok_bind, he', error_bind]⟩

/-! Claim theorems. -/

/-- C3, counterexample: `calculate_valuation` does not return raw
currency-unit values with an exact identity between the returned fields.
On `discounted = [1000]`, `net_debt = 500`, `shares = 100` the returned
enterprise-value field is `round(1000/1000, 2) = 1`, not the raw sum
`1000`, and the returned equity field `1/2` differs from
`returned enterprise value - net_debt = 1 - 500`. -/
theorem C3_counterexample :
    calculate_valuation [1000] 500 100 =
      .ok { enterprise_value_B := 1, equity_value_B := 1/2, share_price := 5 } ∧
    (1 : ℚ) ≠ ([1000] : List ℚ).sum ∧ (1 : ℚ)/2 ≠ 1 - 500 := by
  refine ⟨?_, by norm_num, by norm_num⟩
  rw [calculate_valuation_eq [1000] 500 100 (by norm_num)]
  norm_num [round2, rnd2int, Valuation.mk.injEq]

/-- C3, amended: internally `calculate_valuation` computes
`enterprise_value = sum(discounted_fcfs)`,
`equity_value = enterprise_value - net_debt` and
`share_price = equity_value / shares_outstanding`, and it fails with
DivisionByZero iff `shares_outstanding = 0`; but the returned fields are
the display values `round(enterprise_value / 1000, 2)`,
`round(equity_value / 1000, 2)` and `round(share_price, 2)` — scaled to
thousands and rounded, not raw currency units. -/
theorem C3_amended_thm (d : List ℚ) (nd sh : ℚ) :
    (sh ≠ 0 → calculate_valuation d nd sh =
      .ok { enterprise_value_B := round2 (d.sum / 1000)
            equity_value_B := round2 ((d.sum - nd) / 1000)
            share_price := round2 ((d.sum - nd) / sh) }) ∧
    calculate_valuation d nd 0 = .error .divByZero := by
  exact ⟨fun hsh => calculate_valuation_eq d nd sh hsh, calculate_valuation_zero d nd⟩

/-- Witness for C3: the amended equation evaluated at
`discounted = [1000]`, `net_debt = 500`, `shares = 100`. -/
theorem C3_witness :
    calculate_valuation [1000] 500 100 =
      .ok { enterprise_value_B := round2 (([1000] : List ℚ).sum / 1000)
            equity_value_B := round2 ((([1000] : List ℚ).sum - 500) / 1000)
            share_price := round2 ((([1000] : List ℚ).sum - 500) / 100) } :=
  (C3_amended_thm [1000] 500 100).1 (by norm_num)

/-- C4, confirmed: `calculate_terminal_value` fails with DivisionByZero
exactly when the discount rate equals the terminal growth rate, and
otherwise returns `last_fcf * (1 + growth_rate) / (wacc - terminal_growth)`
(the numerator uses the scenario growth rate, not the terminal growth
rate); in the exact-rational model the result is always finite. -/
theorem C4_thm (l g w t : ℚ) :
    (calculate_terminal_value l g w t = .error .divByZero ↔ w = t) ∧
    (w ≠ t → calculate_terminal_value l g w t = .ok (l * (1 + g) / (w - t))) := by
  constructor
  · constructor
    · intro h
      by_contra hne
      rw [calculate_terminal_value_eq l g w t hne] at h
      cases h
    · intro h
      subst h
      unfold calculate_terminal_value
      rw [sub_self, pydiv_zero]
  · exact calculate_terminal_value_eq l g w t

/-- Witness for C4: at `last_fcf = 100`, `growth = 0`, `wacc = 6/100`,
`terminal_growth = 5/100` the estimator returns the closed-form value. -/
theorem C4_witness :
    calculate_terminal_value 100 0 (6/100) (5/100) =
      .ok (100 * (1 + 0) / (6/100 - 5/100)) :=
  (C4_thm 100 0 (6/100) (5/100)).2 (by norm_num)

/-- C6, counterexample: the projected element is rounded to 2 decimal
places, so it does not equal `base_fcf * (1 + growth_rate) ^ i` in general:
with `base_fcf = 1`, `growth_rate = 1/1000`, `periods = 1` the output is
`[1]` while the formula gives `1001/1000`. -/
theorem C6_counterexample :
    project_fcf 1 (1/1000) 1 = [1] ∧ (1 : ℚ) ≠ 1 * (1 + 1/1000) ^ (0 + 1) := by
  refine ⟨?_, by norm_num⟩
  simp only [project_fcf, List.range_succ, List.range_zero, List.nil_append,
    List.map_cons, List.map_nil]
  rw [round2_eval_down _ 100 (by norm_num) (by norm_num)]
  norm_num

/-- C6, amended: for `periods ≥ 1` the Projector returns a sequence of
length `periods` whose element `i` (0-indexed) equals
`round(base_fcf * (1 + growth_rate) ^ (i + 1), 2)` — the spec formula with
the code's rounding to two decimals applied; the function is pure. -/
theorem C6_amended (b g : ℚ) (y : ℕ) (hy : 1 ≤ y) :
    (project_fcf b g y).length = y ∧
    ∀ i, i < y → (project_fcf b g y).getD i 0 = round2 (b * (1 + g) ^ (i + 1)) := by
  constructor
  · simp [project_fcf]
  · intro i hi
    simp [project_fcf, List.getD_eq_getElem?_getD, List.getElem?_range hi]

/-- Witness for C6: at `periods = 1` the output length is 1. -/
theorem C6_witness : (project_fcf 1 0 1).length = 1 :=
  (C6_amended 1 0 1 (by norm_num)).1

/-- C7, counterexample: the rounding can collapse a strictly positive
projected cash flow to 0: with `base_fcf = 1/1000 > 0`, `growth_rate = 0 > -1`,
`periods = 1` the single output element is `round(1/1000, 2) = 0`,
which is not strictly greater than 0. -/
theorem C7_counterexample :
    (0 : ℚ) < 1/1000 ∧ (-1 : ℚ) < 0 ∧ project_fcf (1/1000) 0 1 = [0] ∧
    ¬ (0 : ℚ) < (project_fcf (1/1000) 0 1).getD 0 0 := by
  refine ⟨by norm_num, by norm_num, ?_, ?_⟩
  · simp only [project_fcf, List.range_succ, List.range_zero, List.nil_append,
      List.map_cons, List.map_nil]
    rw [round2_eval_down _ 0 (by norm_num) (by norm_num)]
    norm_num
  · simp only [project_fcf, List.range_succ, List.range_zero, List.nil_append,
      List.map_cons, List.map_nil, List.getD_cons_zero]
    rw [round2_eval_down _ 0 (by norm_num) (by norm_num)]
    norm_num

/-- C7, amended: for `base_fcf > 0`, `growth_rate > -1`, `periods ≥ 1`,
every element of the Projector's output is nonnegative (weakened from
strictly positive: rounding to two decimals can produce 0). -/
theorem C7_amended (b g : ℚ) (y : ℕ) (hb : 0 < b) (hg : (-1 : ℚ) < g)
    (hy : 1 ≤ y) :
    ∀ i, i < y → 0 ≤ (project_fcf b g y).getD i 0 := by
  intro i hi
  have h1g : (0 : ℚ) < 1 + g := by linarith
  have hpos : 0 < b * (1 + g) ^ (i + 1) := by positivity
  simp only [project_fcf, List.getD_eq_getElem?_getD, List.getElem?_map,
    List.getElem?_range hi, Option.map_some', Option.getD_some]
  exact round2_nonneg _ (le_of_lt hpos)

/-- Witness for C7: the first projected element at `base_fcf = 1`,
`growth = 0`, `periods = 1` is nonnegative. -/
theorem C7_witness : 0 ≤ (project_fcf 1 0 1).getD 0 0 :=
  C7_amended 1 0 1 (by norm_num) (by norm_num) (by norm_num) 0 (by norm_num)

/-- C10, confirmed: the Projector's output is exactly the Sensitivity
Grid Builder's internal cash-flow list with `round(2 decimals)` applied
elementwise (so each Projector element is an integer multiple of 1/100,
and the scenario pipeline consumes rounded flows), the grid's internal
list is the unrounded formula, and the two lists differ on concrete
inputs. The Scenario Runner consumes `project_fcf`'s output by definition
of `run_scenario`. -/
theorem C10_thm (b g : ℚ) (y : ℕ) :
    project_fcf b g y = (fcf_list_sens b g y).map round2 ∧
    (∀ x ∈ project_fcf b g y, ∃ k : ℤ, x = (k : ℚ) / 100) ∧
    (∀ i, i < y → (fcf_list_sens b g y).getD i 0 = b * (1 + g) ^ (i + 1)) ∧
    project_fcf (1/1000) 0 1 ≠ fcf_list_sens (1/1000) 0 1 := by
  refine ⟨?_, ?_, ?_, ?_⟩
  case refine_4 =>
    simp only [project_fcf, fcf_list_sens, List.range_succ, List.range_zero,
      List.nil_append, List.map_cons, List.map_nil, ne_eq, List.cons.injEq,
      and_true, not_and]
    intro h
    rw [round2_eval_down _ 0 (by norm_num) (by norm_num)] at h
    norm_num at h
  · simp [project_fcf, fcf_list_sens, List.map_map]
  · intro x hx
    rcases List.mem_map.mp hx with ⟨i, _, rfl⟩
    exact ⟨rnd2int (100 * (b * (1 + g) ^ (i + 1))), rfl⟩
  · intro i hi
    simp [fcf_list_sens, List.getD_eq_getElem?_getD, List.getElem?_range hi]

/-- Witness for C10: at `base_fcf = 1/1000`, `growth = 0`, `periods = 1`
the Projector output is the rounded grid list. -/
theorem C10_witness :
    project_fcf (1/1000) 0 1 = (fcf_list_sens (1/1000) 0 1).map round2 :=
  (C10_thm (1/1000) 0 1).1

/-- C8, counterexample: the last element of the Discounter's output is
rounded to 2 decimal places, so it does not equal
`terminal_value / (1 + discount_rate) ^ periods` in general: with
`cash_flows = [100]`, `terminal_value = 1001/1000`, `discount_rate = 0`,
`periods = 1` the output is `[100, 1]` but the unrounded terminal present
value is `1001/1000`. -/
theorem C8_counterexample :
    discount_cash_flows [100] (1001/1000) 0 1 = .ok [100, 1] ∧
    (1 : ℚ) ≠ (1001/1000) / (1 + 0) ^ 1 := by
  refine ⟨?_, by norm_num⟩
  rw [discount_cash_flows_eq [100] (1001/1000) 0 1 (by norm_num),
    round2_eval_down _ 100 (by norm_num) (by norm_num)]
  norm_num [pvPure]

/-- C8, amended: for cash flows of length `periods` and
`discount_rate > -1`, the Discounter succeeds with a sequence of length
`periods + 1` whose element `i < periods` is the exact present value
`cash_flows[i] / (1 + discount_rate) ^ (i + 1)` and whose last element is
`round(terminal_value / (1 + discount_rate) ^ periods, 2)` — the terminal
present value rounded to two decimals by the code. -/
theorem C8_amended (cfs : List ℚ) (tv r : ℚ) (y : ℕ) (hlen : cfs.length = y)
    (hr : (-1 : ℚ) < r) :
    ∃ out, discount_cash_flows cfs tv r y = .ok out ∧ out.length = y + 1 ∧
      (∀ i, i < y → out.getD i 0 = cfs.getD i 0 / (1 + r) ^ (i + 1)) ∧
      out.getD y 0 = round2 (tv / (1 + r) ^ y) := by
  have hw : (1 : ℚ) + r ≠ 0 := by
    have : (0 : ℚ) < 1 + r := by linarith
    exact ne_of_gt this
  refine ⟨_, discount_cash_flows_eq cfs tv r y hw, ?_, ?_, ?_⟩
  · simp [pvPure_length r 0 cfs, hlen]
  · intro i hi
    rw [List.getD_append _ _ _ _ (by rw [pvPure_length]; omega)]
    have h := pvPure_getD r 0 cfs i (by omega)
    simpa using h
  · rw [List.getD_append_right _ _ _ _ (by rw [pvPure_length]; omega)]
    simp [pvPure_length, hlen]

/-- Witness for C8: the amended statement at `cash_flows = [100]`,
`terminal_value = 1001/1000`, `discount_rate = 0`, `periods = 1`. -/
theorem C8_witness :
    ∃ out, discount_cash_flows [100] (1001/1000) 0 1 = .ok out ∧
      out.length = 1 + 1 ∧
      (∀ i, i < 1 → out.getD i 0 = ([100] : List ℚ).getD i 0 / (1 + 0) ^ (i + 1)) ∧
      out.getD 1 0 = round2 ((1001/1000) / (1 + 0) ^ 1) :=
  C8_amended [100] (1001/1000) 0 1 (by simp) (by norm_num)

/-- C1, counterexample: a diagonal cell (discount rate = terminal growth
value) does not report an error marker — it raises a division-by-zero
that aborts the whole sensitivity run, so even the non-diagonal cell
(WACC `1/10`) produces nothing: the run with `wacc_range = [1/20, 1/10]`
and `tg_range = [1/20]` returns a single error, not a 1 × 2 grid. -/
theorem C1_counterexample :
    dcf_sensitivity_analysis 1000 100 500 (1/10) [1/20, 1/10] [1/20] 5
      = .error .divByZero := by
  simp only [dcf_sensitivity_analysis, mapME, sens_cell, fcf_list_sens_getLast5,
    ok_bind, sub_self, pydiv_zero, error_bind]

/-- C1, amended: when the Sensitivity Grid Builder returns a grid, the
grid has `len(tg_range)` rows each of length `len(wacc_range)`; but a
diagonal-equal pair (a value occurring in both ranges) makes the whole
run fail with an exception — no error marker is stored in the cell and no
partial grid is returned. -/
theorem C1_amended (b sh nd gr : ℚ) (wr tr : List ℚ) (y : ℕ) :
    (∀ tbl, dcf_sensitivity_analysis b sh nd gr wr tr y = .ok tbl →
      tbl.length = tr.length ∧ ∀ row ∈ tbl, row.length = wr.length) ∧
    (∀ v, v ∈ tr → v ∈ wr →
      ∃ e, dcf_sensitivity_analysis b sh nd gr wr tr y = .error e) := by
  constructor
  · intro tbl htbl
    simp only [dcf_sensitivity_analysis] at htbl
    refine ⟨mapME_ok_length _ tr tbl htbl, ?_⟩
    intro row hrow
    rcases mapME_ok_mem _ tr tbl htbl row hrow with ⟨g, _, hfg⟩
    exact mapME_ok_length _ wr row hfg
  · intro v hvtr hvwr
    rcases sens_cell_diag nd sh gr (fcf_list_sens b gr y) y v with ⟨e, he⟩
    rcases mapME_error_of_mem
        (fun r => sens_cell nd sh gr (fcf_list_sens b gr y) y v r) wr v hvwr
        ⟨e, he⟩ with ⟨e1, he1⟩
    rcases mapME_error_of_mem
        (fun g => mapME (fun r => sens_cell nd sh gr (fcf_list_sens b gr y) y g r) wr)
        tr v hvtr ⟨e1, he1⟩ with ⟨e2, he2⟩
    exact ⟨e2, by simpa [dcf_sensitivity_analysis] using he2⟩

/-- Witness for C1: the failure half of the amended statement at the
inputs of the counterexample (value `1/20` lies in both ranges). -/
theorem C1_witness :
    ∃ e, dcf_sensitivity_analysis 1000 100 500 (1/10) [1/20, 1/10] [1/20] 5
      = .error e :=
  (C1_amended 1000 100 500 (1/10) [1/20, 1/10] [1/20] 5).2 (1/20)
    (by simp) (by simp)

/-- C2, counterexample: a division-by-zero in the second scenario
("Bear", whose WACC `1/40` equals the terminal growth rate `1/40`) aborts
the whole `dcf_model` run: the caller gets a single error — no scenario
name attached, and no result for the first scenario ("Base") even though
it would have succeeded on its own. -/
theorem C2_counterexample :
    dcf_model 1000 500 100 [("Base", ⟨1/10, 9/100⟩), ("Bear", ⟨1/20, 1/40⟩)] (1/40)
      = .error .divByZero := by
  have h1 := run_scenario_eq 1000 500 100 (1/40) (1/10) (9/100)
    (by norm_num) (by norm_num) (by norm_num)
  have h2 : run_scenario 1000 500 100 (1/40) ⟨1/20, 1/40⟩ = .error .divByZero := by
    simp only [run_scenario, project_fcf_getLast5, ok_bind,
      calculate_terminal_value, sub_self, pydiv_zero, error_bind]
  simp only [dcf_model, mapME, h1, h2, map_ok, map_error, ok_bind, error_bind]

/-- C2, amended: a failing stage in any scenario's pipeline makes the
whole `dcf_model` run fail with that exception: the scenario name is not
surfaced, the other scenarios are not evaluated to a returned result, and
the caller receives a single error instead of a partial result set. -/
theorem C2_amended (b nd sh tg : ℚ) (scs : List (String × ScenarioInputs))
    (p : String × ScenarioInputs) (hp : p ∈ scs) (e : Err)
    (he : run_scenario b nd sh tg p.2 = .error e) :
    ∃ e2, dcf_model b nd sh scs tg = .error e2 := by
  have hf : (fun q : String × ScenarioInputs =>
      (run_scenario b nd sh tg q.2).map (fun vd => (q.1, vd))) p = .error e := by
    show (run_scenario b nd sh tg p.2).map (fun vd => (p.1, vd)) = .error e
    rw [he]
    rfl
  rcases mapME_error_of_mem (fun q : String × ScenarioInputs =>
      (run_scenario b nd sh tg q.2).map (fun vd => (q.1, vd))) scs p hp ⟨e, hf⟩
    with ⟨e2, he2⟩
  exact ⟨e2, by simp only [dcf_model, he2, error_bind]⟩

/-- Witness for C2: the amended statement at the counterexample's inputs,
where the "Bear" scenario fails. -/
theorem C2_witness :
    ∃ e2, dcf_model 1000 500 100
      [("Base", ⟨1/10, 9/100⟩), ("Bear", ⟨1/20, 1/40⟩)] (1/40) = .error e2 :=
  C2_amended 1000 500 100 (1/40)
    [("Base", ⟨1/10, 9/100⟩), ("Bear", ⟨1/20, 1/40⟩)]
    ("Bear", ⟨1/20, 1/40⟩) (by simp) .divByZero
    (by simp only [run_scenario, project_fcf_getLast5, ok_bind,
      calculate_terminal_value, sub_self, pydiv_zero, error_bind])

/-- Helper: destructuring a successful `dcf_model` run into the
successful scenario loop underneath it. -/
theorem dcf_model_ok_elim (b nd sh tg : ℚ)
    (scs : List (String × ScenarioInputs))
    (res : List (String × Valuation) × List (String × List ℚ))
    (h : dcf_model b nd sh scs tg = .ok res) :
    ∃ pairs, mapME (fun p : String × ScenarioInputs =>
        (run_scenario b nd sh tg p.2).map (fun vd => (p.1, vd))) scs = .ok pairs ∧
      res = (pairs.map (fun x => (x.1, x.2.1)), pairs.map (fun x => (x.1, x.2.2))) := by
  unfold dcf_model at h
  cases hm : mapME (fun p : String × ScenarioInputs =>
      (run_scenario b nd sh tg p.2).map (fun vd => (p.1, vd))) scs with
  | error e => rw [hm, error_bind] at h; cases h
  | ok pairs =>
    rw [hm, ok_bind] at h
    exact ⟨pairs, rfl, (Except.ok.inj h).symm⟩

/-- Helper: the loop body of `dcf_model` keeps the scenario's name. -/
theorem dcf_model_body_fst (b nd sh tg : ℚ) (p : String × ScenarioInputs)
    (q : String × (Valuation × List ℚ))
    (h : (run_scenario b nd sh tg p.2).map (fun vd => (p.1, vd)) = .ok q) :
    q.1 = p.1 := by
  cases hr : run_scenario b nd sh tg p.2 with
  | error e => rw [hr, map_error] at h; cases h
  | ok vd =>
    rw [hr, map_ok] at h
    rw [← Except.ok.inj h]

/-- C9, confirmed: a successful Scenario Runner run returns exactly one
valuation and one discounted series per input scenario, with the
scenario names in insertion order; and there is no cross-contamination:
for two scenario lists that agree everywhere except (at most) position
`j`, the results at every position `i ≠ j` coincide — in particular
changing one scenario's growth rate does not alter any other scenario's
result. -/
theorem C9_thm (b nd sh tg : ℚ) (scs scs2 : List (String × ScenarioInputs))
    (j : ℕ) (hlen : scs.length = scs2.length)
    (hagree : ∀ i : ℕ, i ≠ j → scs[i]? = scs2[i]?) :
    (∀ res, dcf_model b nd sh scs tg = .ok res →
      res.1.map Prod.fst = scs.map Prod.fst ∧ res.1.length = scs.length ∧
      res.2.map Prod.fst = scs.map Prod.fst) ∧
    (∀ res res2, dcf_model b nd sh scs tg = .ok res →
      dcf_model b nd sh scs2 tg = .ok res2 →
      ∀ i : ℕ, i ≠ j → res.1[i]? = res2.1[i]?) := by
  constructor
  · intro res hres
    rcases dcf_model_ok_elim b nd sh tg scs res hres with ⟨pairs, hm, rfl⟩
    refine ⟨?_, ?_, ?_⟩
    · rw [List.map_map]
      exact mapME_ok_map _ _ _ scs pairs hm
        (fun a q hq => dcf_model_body_fst b nd sh tg a q hq)
    · rw [List.length_map]
      exact mapME_ok_length _ scs pairs hm
    · rw [List.map_map]
      exact mapME_ok_map _ _ _ scs pairs hm
        (fun a q hq => dcf_model_body_fst b nd sh tg a q hq)
  · intro res res2 hres hres2 i hij
    rcases dcf_model_ok_elim b nd sh tg scs res hres with ⟨pairs, hm, rfl⟩
    rcases dcf_model_ok_elim b nd sh tg scs2 res2 hres2 with ⟨pairs2, hm2, rfl⟩
    have h1 := mapME_ok_getElem? _ scs pairs hm i
    have h2 := mapME_ok_getElem? _ scs2 pairs2 hm2 i
    simp only [List.getElem?_map, h1, h2, hagree i hij]

/-- Witness for C9: a one-scenario run (scenario "A", zero base cash
flow, growth 0, WACC 0, terminal growth -1) succeeds and returns one
result with the input's name and length. -/
theorem C9_witness :
    ([("A", vRS 0 0 1 (-1) 0 0)] : List (String × Valuation)).map Prod.fst =
      ([("A", (⟨0, 0⟩ : ScenarioInputs))]).map Prod.fst ∧
    ([("A", vRS 0 0 1 (-1) 0 0)] : List (String × Valuation)).length =
      ([("A", (⟨0, 0⟩ : ScenarioInputs))]).length ∧
    ([("A", dsRS 0 (-1) 0 0)] : List (String × List ℚ)).map Prod.fst =
      ([("A", (⟨0, 0⟩ : ScenarioInputs))]).map Prod.fst := by
  have h1 := run_scenario_eq 0 0 1 (-1) 0 0 (by norm_num) (by norm_num) (by norm_num)
  have hres : dcf_model 0 0 1 [("A", ⟨0, 0⟩)] (-1) =
      .ok ([("A", vRS 0 0 1 (-1) 0 0)], [("A", dsRS 0 (-1) 0 0)]) := by
    simp only [dcf_model, mapME, h1, map_ok, ok_bind, List.map_cons, List.map_nil]
    rfl
  exact (C9_thm 0 0 1 (-1) [("A", ⟨0, 0⟩)] [("A", ⟨0, 0⟩)] 0 rfl
    (fun i _ => rfl)).1 _ hres

/-- C5, counterexample: the two pipelines disagree on concrete inputs
because the Scenario Runner rounds each projected cash flow and the
terminal present value to 2 decimals while the Sensitivity Grid Builder
does not: with `base_fcf = 1000.004`, `growth = 0`, `wacc = 0`,
`terminal growth = -1/100`, `shares = 1`, `net debt = 0` the scenario's
share price is `105000` while the 1 × 1 grid cell is `105000.42`. -/
theorem C5_counterexample :
    (dcf_model (250001/250) 0 1 [("Base", ⟨0, 0⟩)] (-1/100)).map
        (fun out => out.1.map (fun x => (x.1, x.2.share_price)))
      = .ok [("Base", 105000)] ∧
    dcf_sensitivity_analysis (250001/250) 1 0 0 [0] [-1/100] 5
      = .ok [[5250021/50]] ∧
    (105000 : ℚ) ≠ 5250021/50 := by
  have h1000 : ∀ k : ℕ, round2 ((250001/250 : ℚ) * (1 + 0) ^ k) = 1000 := by
    intro k
    have he : (250001/250 : ℚ) * (1 + 0) ^ k = 250001/250 := by norm_num
    rw [he, round2_eval_down _ 100000 (by norm_num) (by norm_num)]
    norm_num
  have hfcfs : project_fcf (250001/250) 0 5 = [1000, 1000, 1000, 1000, 1000] := by
    simp only [project_fcf, List.range_succ, List.range_zero, List.nil_append,
      List.map_append, List.map_cons, List.map_nil, List.cons_append, h1000]
  have hds : dsRS (250001/250) (-1/100) 0 0 = [1000, 1000, 1000, 1000, 1000, 100000] := by
    have htpv : round2 (((1000 : ℚ) * (1 + 0) / (0 - (-1/100))) / (1 + 0) ^ 5)
        = 100000 := by
      have he : ((1000 : ℚ) * (1 + 0) / (0 - (-1/100))) / (1 + 0) ^ 5
          = ((10000000 : ℤ) : ℚ) / 100 := by norm_num
      rw [he, round2_of_int_div]
      norm_num
    simp only [dsRS, hfcfs, h1000, htpv]
    norm_num [pvPure]
  have hprice : (vRS (250001/250) 0 1 (-1/100) 0 0).share_price = 105000 := by
    show round2 (((dsRS (250001/250) (-1/100) 0 0).sum - 0) / 1) = 105000
    rw [hds]
    have he : (([1000, 1000, 1000, 1000, 1000, 100000] : List ℚ).sum - 0) / 1
        = ((10500000 : ℤ) : ℚ) / 100 := by norm_num
    rw [he, round2_of_int_div]
    norm_num
  refine ⟨?_, ?_, by norm_num⟩
  · have hRS := run_scenario_eq (250001/250) 0 1 (-1/100) 0 0
      (by norm_num) (by norm_num) (by norm_num)
    have hmodel : dcf_model (250001/250) 0 1 [("Base", ⟨0, 0⟩)] (-1/100) =
        .ok ([("Base", vRS (250001/250) 0 1 (-1/100) 0 0)],
             [("Base", dsRS (250001/250) (-1/100) 0 0)]) := by
      simp only [dcf_model, mapME, hRS, map_ok, ok_bind, List.map_cons, List.map_nil]
      rfl
    rw [hmodel, map_ok]
    simp only [List.map_cons, List.map_nil, hprice]
  · have hF : fcf_list_sens (250001/250) 0 5 =
        [250001/250, 250001/250, 250001/250, 250001/250, 250001/250] := by
      simp only [fcf_list_sens, List.range_succ, List.range_zero, List.nil_append,
        List.map_append, List.map_cons, List.map_nil, List.cons_append]
      norm_num
    have hcell := sens_cell_eq 0 1 0 (fcf_list_sens (250001/250) 0 5) 5 (-1/100) 0
      ((250001/250 : ℚ) * (1 + 0) ^ 5) (fcf_list_sens_getLast5 (250001/250) 0)
      (by norm_num) (by norm_num) (by norm_num)
    have hPval : round2 ((((pvPure 0 0 (fcf_list_sens (250001/250) 0 5)).sum +
        ((250001/250 : ℚ) * (1 + 0) ^ 5 * (1 + 0) / (0 - (-1/100))) / (1 + 0) ^ 5)
        - 0) / 1) = 5250021/50 := by
      rw [hF]
      have he2 : ((((pvPure 0 0 ([250001/250, 250001/250, 250001/250, 250001/250,
          250001/250] : List ℚ)).sum +
          ((250001/250 : ℚ) * (1 + 0) ^ 5 * (1 + 0) / (0 - (-1/100))) / (1 + 0) ^ 5)
          - 0) / 1) = ((10500042 : ℤ) : ℚ) / 100 := by
        norm_num [pvPure]
      rw [he2, round2_of_int_div]
      norm_num
    simp only [dcf_sensitivity_analysis, mapME, hcell, ok_bind, hPval]
    rfl

/-- C5, amended: the 1 × 1 sensitivity grid reproduces the Scenario
Runner's per-share price only when the rounding steps that distinguish
the two pipelines are no-ops: if the projected cash flows are unchanged
by 2-decimal rounding (`project_fcf` agrees with the unrounded list) and
the terminal present value is unchanged by 2-decimal rounding, then for
`r ≠ t` (and nonzero shares and `1 + r`) the single grid cell equals the
scenario's share price. Without those hypotheses the two pipelines
disagree (see the counterexample). -/
theorem C5_amended (b nd sh g r t : ℚ) (hrt : r ≠ t) (hr : (1 : ℚ) + r ≠ 0)
    (hsh : sh ≠ 0)
    (hproj : project_fcf b g 5 = fcf_list_sens b g 5)
    (htv : round2 ((b * (1 + g) ^ 5 * (1 + g) / (r - t)) / (1 + r) ^ 5)
         = (b * (1 + g) ^ 5 * (1 + g) / (r - t)) / (1 + r) ^ 5) :
    ∃ v ds p, dcf_model b nd sh [("S", ⟨g, r⟩)] t = .ok ([("S", v)], [("S", ds)]) ∧
      dcf_sensitivity_analysis b sh nd g [r] [t] 5 = .ok [[p]] ∧
      v.share_price = p := by
  have hlastP := project_fcf_getLast5 b g
  rw [hproj, fcf_list_sens_getLast5] at hlastP
  have hr2 : round2 (b * (1 + g) ^ 5) = b * (1 + g) ^ 5 :=
    (Option.some.inj hlastP).symm
  have hRS := run_scenario_eq b nd sh t g r hr hrt hsh
  have hcell := sens_cell_eq nd sh g (fcf_list_sens b g 5) 5 t r (b * (1 + g) ^ 5)
    (fcf_list_sens_getLast5 b g) (sub_ne_zero.mpr hrt) hr hsh
  refine ⟨vRS b nd sh t g r, dsRS b t g r,
    round2 ((((pvPure r 0 (fcf_list_sens b g 5)).sum +
      (b * (1 + g) ^ 5 * (1 + g) / (r - t)) / (1 + r) ^ 5) - nd) / sh),
    ?_, ?_, ?_⟩
  · simp only [dcf_model, mapME, hRS, map_ok, ok_bind, List.map_cons, List.map_nil]
    rfl
  · simp only [dcf_sensitivity_analysis, mapME, hcell, ok_bind]
    rfl
  · show round2 (((dsRS b t g r).sum - nd) / sh) = _
    simp only [dsRS, List.sum_append, List.sum_cons, List.sum_nil, add_zero,
      hproj, hr2, htv]

/-- Witness for C5: at `base_fcf = 100`, `growth = 0`, `wacc = 0`,
`terminal growth = -1/4`, `net debt = 0`, `shares = 1` all roundings are
no-ops and the two pipelines both succeed with equal prices. -/
theorem C5_witness :
    ∃ v ds p, dcf_model 100 0 1 [("S", ⟨0, 0⟩)] (-1/4) = .ok ([("S", v)], [("S", ds)]) ∧
      dcf_sensitivity_analysis 100 1 0 0 [0] [-1/4] 5 = .ok [[p]] ∧
      v.share_price = p := by
  have hproj : project_fcf 100 0 5 = fcf_list_sens 100 0 5 := by
    have h : ∀ k : ℕ, round2 (100 * (1 + 0 : ℚ) ^ k) = 100 * (1 + 0 : ℚ) ^ k := by
      intro k
      have he : (100 : ℚ) * (1 + 0 : ℚ) ^ k = ((10000 : ℤ) : ℚ) / 100 := by norm_num
      rw [he, round2_of_int_div]
    simp only [project_fcf, fcf_list_sens, List.range_succ, List.range_zero,
      List.nil_append, List.map_append, List.map_cons, List.map_nil, h]
  have htv : round2 ((100 * (1 + 0 : ℚ) ^ 5 * (1 + 0) / (0 - (-1/4))) / (1 + 0) ^ 5)
      = (100 * (1 + 0 : ℚ) ^ 5 * (1 + 0) / (0 - (-1/4))) / (1 + 0) ^ 5 := by
    have he : (100 * (1 + 0 : ℚ) ^ 5 * (1 + 0) / (0 - (-1/4))) / (1 + 0) ^ 5
        = ((40000 : ℤ) : ℚ) / 100 := by norm_num
    rw [he, round2_of_int_div]
  exact C5_amended 100 0 1 0 0 (-1/4) (by norm_num) (by norm_num) (by norm_num)
    hproj htv

end DCF
